import Mathlib

set_option autoImplicit false
set_option maxRecDepth 8000

/-!
# A verification model of the `data_hub` pipeline

This file gives a shallow embedding, in Lean 4, of the core of the
`finedata` data-hub (files `src/data_hub/ingestion.py`,
`src/data_hub/analytics.py`, `src/data_hub/models.py`) and proves the
spec-level properties about it.

Modelling conventions:

* JSON scalar payload values are the inductive `Value` (null / number /
  string); a record payload is an association list `Payload`.
* Machine floats are modelled by exact rationals `ℚ`; SQL rows are Lean
  structures; the database session is an explicit `HubState` record that
  operations thread through.
* Python code that can raise is modelled in `Except String`; a function
  whose Python original returns normally is total.
* `pandas.to_datetime` / `pandas.to_numeric` are modelled by `toDatetime`
  and `toNumeric` over an ISO-format subset (`YYYY-MM-DD` with optional
  `THH:MM:SS` clock) and plain decimal literals; timestamps are rational
  days since the Unix epoch.  Wall-clock columns (`created_at`,
  `ingested_at` metadata, …) are not modelled.
-/

namespace DataHub

variable {α β ε : Type _}

/-- A scalar JSON value as stored in a record payload. -/
inductive Value where
  | null : Value
  | num (q : ℚ) : Value
  | str (s : String) : Value
deriving DecidableEq, Repr

/-- A record payload: the key-value map of one ingested item. -/
abbrev Payload := List (String × Value)

def Value.isNull : Value → Bool
  | .null => true
  | _ => false

def Value.isStr : Value → Bool
  | .str _ => true
  | _ => false

/-! ## Character-level parsing helpers

`pandas` string coercion is modelled over `List Char` so that every
definition evaluates by kernel reduction. -/

/-- Split a character list at every occurrence of `sep` (model of
`str.split(sep)`). -/
def splitOnChar (sep : Char) : List Char → List (List Char)
  | [] => [[]]
  | c :: rest =>
    let r := splitOnChar sep rest
    if c = sep then [] :: r
    else
      match r with
      | [] => [[c]]
      | h :: t => (c :: h) :: t

/-- The numeric value of a decimal digit list, `none` if empty or any
character is not a digit. -/
def digitsVal : List Char → Option ℕ
  | [] => none
  | l => l.foldl (fun acc c =>
      match acc with
      | none => none
      | some n => if c.isDigit then some (n * 10 + (c.toNat - 48)) else none)
      (some 0)

/-- Parse an unsigned decimal literal (`"12"`, `"3.5"`) into a rational. -/
def parseUnsigned (l : List Char) : Option ℚ :=
  match splitOnChar '.' l with
  | [a] => (digitsVal a).map (fun n => (n : ℚ))
  | [a, b] =>
    match digitsVal a, digitsVal b with
    | some n, some f => some ((n : ℚ) + (f : ℚ) / (10 : ℚ) ^ b.length)
    | _, _ => none
  | _ => none

/-- Parse a (possibly negative) decimal literal.  Model of the string
acceptance of `pandas.to_numeric`. -/
def parseNumericStr (s : String) : Option ℚ :=
  match s.data with
  | '-' :: rest => (parseUnsigned rest).map (fun q => -q)
  | l => parseUnsigned l

/-- `pandas.to_numeric(·, errors="coerce")` on one scalar: numbers pass
through, numeric strings parse, everything else coerces to NaN (`none`). -/
def toNumeric : Value → Option ℚ
  | .num q => some q
  | .str s => parseNumericStr s
  | .null => none

/-- Days since 1970-01-01 of a calendar date (standard civil-calendar
counting, as used by timestamp libraries). -/
def daysFromCivil (y m d : ℤ) : ℤ :=
  let y' := if m ≤ 2 then y - 1 else y
  let era := (if 0 ≤ y' then y' else y' - 399) / 400
  let yoe := y' - era * 400
  let doy := (153 * (if 2 < m then m - 3 else m + 9) + 2) / 5 + d - 1
  let doe := yoe * 365 + yoe / 4 - yoe / 100 + doy
  era * 146097 + doe - 719468

/-- Parse `"YYYY-MM-DD"` into days since the epoch. -/
def parseDatePart (l : List Char) : Option ℤ :=
  match splitOnChar '-' l with
  | [ys, ms, ds] =>
    match digitsVal ys, digitsVal ms, digitsVal ds with
    | some y, some m, some d =>
      if ys.length = 4 ∧ 1 ≤ m ∧ m ≤ 12 ∧ 1 ≤ d ∧ d ≤ 31 then
        some (daysFromCivil y m d)
      else none
    | _, _, _ => none
  | _ => none

/-- Parse `"HH:MM:SS"` into a fraction of a day. -/
def parseClock (l : List Char) : Option ℚ :=
  match splitOnChar ':' l with
  | [hs, ms, ss] =>
    match digitsVal hs, digitsVal ms, digitsVal ss with
    | some h, some m, some s =>
      if h < 24 ∧ m < 60 ∧ s < 60 then
        some (((3600 * h + 60 * m + s : ℕ) : ℚ) / 86400)
      else none
    | _, _, _ => none
  | _ => none

/-- Parse an ISO timestamp string (`YYYY-MM-DD` or `YYYY-MM-DDTHH:MM:SS`)
into rational days since the epoch; `none` when unparseable. -/
def parseTimestamp (s : String) : Option ℚ :=
  match splitOnChar 'T' s.data with
  | [d] => (parseDatePart d).map (fun n => (n : ℚ))
  | [d, t] =>
    match parseDatePart d, parseClock t with
    | some n, some c => some ((n : ℚ) + c)
    | _, _ => none
  | _ => none

/-- `pandas.to_datetime` on one scalar.  `None`/NaN becomes `NaT`
(`.ok none`); a number is nanoseconds since the epoch; an unparseable
string raises (the default is `errors="raise"`). -/
def toDatetime : Value → Except String (Option ℚ)
  | .null => .ok none
  | .num q => .ok (some (q / 86400000000000))
  | .str s =>
    match parseTimestamp s with
    | some t => .ok (some t)
    | none => .error ("Unknown datetime string format: " ++ s)

/-! ## Generic list machinery -/

/-- Insert into a sorted list (auxiliary to `sortBy`). -/
def insertBy (le : α → α → Bool) (a : α) : List α → List α
  | [] => [a]
  | b :: l => if le a b then a :: b :: l else b :: insertBy le a l

/-- Stable insertion sort; models `DataFrame.sort_values` /
`Series.sort_values`. -/
def sortBy (le : α → α → Bool) : List α → List α
  | [] => []
  | a :: l => insertBy le a (sortBy le l)

/-- Map a fallible function over a list, propagating the first raised
exception (the element-wise behaviour of a raising `pandas` column
conversion). -/
def mapExcept (f : α → Except ε β) : List α → Except ε (List β)
  | [] => .ok []
  | a :: l =>
    match f a, mapExcept f l with
    | .ok b, .ok bs => .ok (b :: bs)
    | .error e, _ => .error e
    | .ok _, .error e => .error e

/-! ## Record store (`src/data_hub/models.py`)

One structure per ORM row type, keeping the fields the modelled
operations read or write.  Wall-clock columns and the unused tables
(`AIModel`, `User`, `DataQuery`) are not modelled. -/

/-- Row of `data_sources`. -/
structure DataSource where
  id : ℕ
  name : String
  description : String := ""
  source_type : String
deriving DecidableEq, Repr

/-- Row of `datasets`. -/
structure Dataset where
  id : ℕ
  name : String
  description : String := ""
  source_id : ℕ
  record_count : ℕ := 0
deriving DecidableEq, Repr

/-- Row of `data_records`. -/
structure DataRecord where
  dataset_id : ℕ
  data : Payload
deriving DecidableEq, Repr

/-- Row of `data_ingestion_logs`. -/
structure DataIngestionLog where
  dataset_id : ℕ
  source_id : ℕ
  records_processed : ℕ := 0
  records_failed : ℕ := 0
  status : String := "RUNNING"
  error_message : Option String := none
deriving DecidableEq, Repr

/-- The database session's view of the store: one list per table. -/
structure HubState where
  sources : List DataSource := []
  datasets : List Dataset := []
  records : List DataRecord := []
  logs : List DataIngestionLog := []
deriving DecidableEq, Repr

/-- `session.query(DataSource).filter(DataSource.id == source_id).first()` -/
def findSource (st : HubState) (source_id : ℕ) : Option DataSource :=
  st.sources.find? (fun s => s.id == source_id)

/-- `session.query(Dataset).filter(Dataset.id == dataset_id).first()` -/
def findDataset (st : HubState) (dataset_id : ℕ) : Option Dataset :=
  st.datasets.find? (fun d => d.id == dataset_id)

/-- `session.query(DataRecord).filter(DataRecord.dataset_id == id).count()` -/
def countRecords (st : HubState) (dataset_id : ℕ) : ℕ :=
  (st.records.filter (fun r => r.dataset_id == dataset_id)).length

/-! ## Ingestion (`src/data_hub/ingestion.py`, class `DataIngestor`) -/

/-- One candidate item of a source payload: either a key-value map or
anything else (`isinstance(record, dict)` is the only test applied). -/
inductive SourceItem where
  | dict (p : Payload) : SourceItem
  | nondict : SourceItem
deriving DecidableEq, Repr

def SourceItem.isDict : SourceItem → Bool
  | .dict _ => true
  | .nondict => false

deriving instance DecidableEq for Except

/-- The HTTP response observed by `ingest_from_api`: a status code and
the candidate-item list produced by `response.json()` plus the
`data_field` extraction of lines 70-76 (`.error` = the decode raised). -/
structure HttpResponse where
  status_code : ℕ
  body : Except String (List SourceItem)
deriving DecidableEq, Repr

/-- A decoded JSON file body: `records = data if isinstance(data, list)
else [data]` distinguishes a top-level array from a single value. -/
inductive JsonShape where
  | jlist (items : List SourceItem) : JsonShape
  | jsingle (it : SourceItem) : JsonShape
deriving DecidableEq, Repr

/-- The candidate list extracted from a JSON file body. -/
def jsonItems : JsonShape → List SourceItem
  | .jlist l => l
  | .jsingle it => [it]

/-- `DataIngestor.register_data_source`: unconditionally insert and
return a new source row (primary key modelled as list length + 1). -/
def register_data_source (st : HubState) (name : String) (source_type : String)
    (description : String := "") : HubState × DataSource :=
  let s : DataSource := { id := st.sources.length + 1, name, description, source_type }
  ({ st with sources := st.sources ++ [s] }, s)

/-- `DataIngestor.create_dataset`: insert and return a dataset row bound
to `source_id`.  The source mirrors the Python exactly: no lookup of
`source_id` is performed before the insert. -/
def create_dataset (st : HubState) (name : String) (source_id : ℕ)
    (description : String := "") : HubState × Dataset :=
  let ds : Dataset := { id := st.datasets.length + 1, name, description, source_id }
  ({ st with datasets := st.datasets ++ [ds] }, ds)

/-- The per-candidate loop shared by both ingestion paths (lines 78-92 /
147-161): a dict item becomes a persisted row and counts as processed,
anything else increments the failure counter.  Returns the new rows in
source order together with (processed, failed). -/
def processItems (dataset_id : ℕ) : List SourceItem → List DataRecord × ℕ × ℕ
  | [] => ([], 0, 0)
  | .dict p :: rest =>
    ({ dataset_id := dataset_id, data := p } :: (processItems dataset_id rest).1,
     (processItems dataset_id rest).2.1 + 1, (processItems dataset_id rest).2.2)
  | .nondict :: rest =>
    ((processItems dataset_id rest).1,
     (processItems dataset_id rest).2.1, (processItems dataset_id rest).2.2 + 1)

/-- The shared tail of both ingestion paths: given the outcome of the
fallible extraction stage, either record a FAILED log (`except` branch)
or insert the rows, recompute `record_count` with a fresh count query,
and record a COMPLETED log.  In both cases the log row is committed and
returned (`finally: return log`). -/
def finishIngestion (st : HubState) (source_id dataset_id : ℕ)
    (outcome : Except String (List SourceItem)) : HubState × DataIngestionLog :=
  match outcome with
  | .error e =>
    let log : DataIngestionLog :=
      { dataset_id, source_id, status := "FAILED", error_message := some e }
    ({ st with logs := st.logs ++ [log] }, log)
  | .ok items =>
    let st' := { st with records := st.records ++ (processItems dataset_id items).1 }
    let newCount := countRecords st' dataset_id
    let datasets' := st'.datasets.map (fun d =>
      if d.id == dataset_id then { d with record_count := newCount } else d)
    let log : DataIngestionLog :=
      { dataset_id, source_id,
        records_processed := (processItems dataset_id items).2.1,
        records_failed := (processItems dataset_id items).2.2,
        status := "COMPLETED" }
    ({ st' with datasets := datasets', logs := st.logs ++ [log] }, log)

/-- Decimal digits of a number, via explicit fuel so that the definition
evaluates by kernel reduction (model of `str(n)` in an f-string). -/
def natDigits : ℕ → ℕ → List Char
  | 0, _ => []
  | fuel + 1, n =>
    if n < 10 then [Char.ofNat (48 + n)]
    else natDigits fuel (n / 10) ++ [Char.ofNat (48 + n % 10)]

def natRepr (n : ℕ) : String :=
  ⟨natDigits (n + 1) n⟩

/-- `DataIngestor.ingest_from_api`.  The network call is an input: the
function observes an `HttpResponse`.  A missing source or dataset raises
(`.error`) before any log row exists; every other failure is caught and
recorded as a FAILED log. -/
def ingest_from_api (st : HubState) (source_id dataset_id : ℕ)
    (response : HttpResponse) : HubState × Except String DataIngestionLog :=
  match findSource st source_id, findDataset st dataset_id with
  | some _, some _ =>
    let outcome : Except String (List SourceItem) :=
      if response.status_code ≠ 200 then
        .error ("API request failed with status " ++ natRepr response.status_code)
      else response.body
    ((finishIngestion st source_id dataset_id outcome).1,
     .ok (finishIngestion st source_id dataset_id outcome).2)
  | _, _ => (st, .error "Source or dataset not found")

/-- `str.lower()` for ASCII format names. -/
def strLower (s : String) : String :=
  ⟨s.data.map (fun c => if 'A' ≤ c ∧ c ≤ 'Z' then Char.ofNat (c.toNat + 32) else c)⟩

/-- `DataIngestor.ingest_from_file`.  The filesystem reads are inputs:
`jsonData` is the outcome of `json.load` (for format `json`), `csvRows`
the outcome of `pd.read_csv(...).to_dict('records')` (for format `csv`,
always a list of key-value maps).  An unsupported format raises inside
the `try` and hence fails the run. -/
def ingest_from_file (st : HubState) (source_id dataset_id : ℕ)
    (file_format : String) (jsonData : Except String JsonShape)
    (csvRows : Except String (List Payload)) : HubState × Except String DataIngestionLog :=
  match findSource st source_id, findDataset st dataset_id with
  | some _, some _ =>
    let outcome : Except String (List SourceItem) :=
      if strLower file_format = "json" then
        jsonData.map jsonItems
      else if strLower file_format = "csv" then
        csvRows.map (fun rows => rows.map .dict)
      else .error ("Unsupported file format: " ++ file_format)
    ((finishIngestion st source_id dataset_id outcome).1,
     .ok (finishIngestion st source_id dataset_id outcome).2)
  | _, _ => (st, .error "Source or dataset not found")

/-! ## Data processor (`src/data_hub/ingestion.py`, class `DataProcessor`) -/

/-- The new payload of one record under `transform_data`: the
transform's result when it returns, the original payload when it
raises. -/
def transformRecord (f : Payload → Except String Payload) (r : DataRecord) : DataRecord :=
  match f r.data with
  | .ok p => { r with data := p }
  | .error _ => r

/-- Whether `transform_data` counts record `r` as transformed: the
transform returned normally and the payload actually changed. -/
def transformChanged (f : Payload → Except String Payload) (r : DataRecord) : Bool :=
  match f r.data with
  | .ok p => p != r.data
  | .error _ => false

/-- `DataProcessor.transform_data`: apply the whole-record transform to
every record of the dataset, leaving a record unmodified when the
transform raises, and return the number of records whose payload
changed. -/
def transform_data (st : HubState) (dataset_id : ℕ)
    (f : Payload → Except String Payload) : HubState × ℕ :=
  let targets := st.records.filter (fun r => r.dataset_id == dataset_id)
  let count := targets.foldl
    (fun c r =>
      match f r.data with
      | .ok p => if p != r.data then c + 1 else c
      | .error _ => c) 0
  ({ st with records := st.records.map (fun r =>
      if r.dataset_id == dataset_id then transformRecord f r else r) }, count)

/-! ## Analytics (`src/data_hub/analytics.py`, class `DataAnalytics`) -/

/-- The union of the payload keys: `df.columns` of the DataFrame built
from the record payloads, membership-tested. -/
def hasColumn (records : List Payload) (f : String) : Bool :=
  records.any (fun p => (p.map Prod.fst).contains f)

/-- `df[f]` for one row: the payload's value, NaN (`null`) when the row
lacks the key. -/
def getCol (p : Payload) (f : String) : Value :=
  (p.lookup f).getD .null

/-- Minimum of a rational list (`Series.min()` over a non-empty,
NaN-free column; `0` on the unreachable empty case). -/
def minQ : List ℚ → ℚ
  | [] => 0
  | a :: l => l.foldl min a

/-- Maximum, likewise. -/
def maxQ : List ℚ → ℚ
  | [] => 0
  | a :: l => l.foldl max a

/-- `scipy.stats.linregress`, restricted to the slope and intercept the
trend analysis consumes.  `n*sxx - sx^2 = n * Σ(x - x̄)²`, so the zero
test is scipy's "all x values are identical" guard, and
`(n*sxy - sx*sy) / (n*sxx - sx^2) = Σ(x-x̄)(y-ȳ) / Σ(x-x̄)²` is exactly
scipy's slope. -/
def linregress (pts : List (ℚ × ℚ)) : Except String (ℚ × ℚ) :=
  let n : ℚ := pts.length
  let sx := (pts.map Prod.fst).sum
  let sy := (pts.map Prod.snd).sum
  let sxx := (pts.map (fun p => p.1 * p.1)).sum
  let sxy := (pts.map (fun p => p.1 * p.2)).sum
  let den := n * sxx - sx * sx
  if den = 0 then
    .error "Cannot calculate a linear regression if all x values are identical"
  else
    let slope := (n * sxy - sx * sy) / den
    .ok (slope, (sy - slope * sx) / n)

/-- Line 129 of `analytics.py`. -/
def directionLabel (slope : ℚ) : String :=
  if 0 < slope then "increasing" else if slope < 0 then "decreasing" else "stable"

/-- What `run_trend_analysis` hands back: a structured `{"error": …}`
dictionary or the fitted trend (the fields the claims are about; R²,
p-value and standard error are real-analytic quantities not modelled). -/
inductive AnalysisReply where
  | err (msg : String) : AnalysisReply
  | trend (slope intercept : ℚ) (direction : String) (total_points : ℕ) : AnalysisReply
deriving DecidableEq, Repr

/-- Ordering key of `df.sort_values(by=time_field)`: ascending on the
converted timestamps, NaT sorted last. -/
def timeKeyLE (a b : Option ℚ × Value) : Bool :=
  match a.1, b.1 with
  | _, none => true
  | none, some _ => false
  | some x, some y => decide (x ≤ y)

/-- Lines 102-108: sort the (time, value) rows by time, coerce the value
column to numeric, and drop the rows where either is missing. -/
def validPairs (times : List (Option ℚ)) (vals : List Value) : List (ℚ × ℚ) :=
  (sortBy timeKeyLE (times.zip vals)).filterMap (fun r =>
    match r.1, toNumeric r.2 with
    | some t, some v => some (t, v)
    | _, _ => none)

/-- Lines 102-161 of `run_trend_analysis`: everything after the datetime
conversion succeeded.  This region never raises: `to_numeric` uses
`errors="coerce"` and the `linregress` exception is caught by the
`except` clause and returned as `{"error": str(e)}`. -/
def trendCore (times : List (Option ℚ)) (vals : List Value) : AnalysisReply :=
  let valid := validPairs times vals
  if valid.length < 2 then .err "Not enough valid data points for trend analysis"
  else
    let tmin := minQ (valid.map Prod.fst)
    let pts := valid.map (fun r => (((⌊r.1 - tmin⌋ : ℤ) : ℚ), r.2))
    match linregress pts with
    | .error e => .err e
    | .ok (slope, intercept) =>
      .trend slope intercept (directionLabel slope) valid.length

/-- `DataAnalytics.run_trend_analysis` over the dataset's record
payloads.  The `pd.to_datetime` call on line 99 sits outside the `try`
block, so an unparseable time value propagates as an exception
(`.error`); every other outcome is a returned dictionary (`.ok`). -/
def run_trend_analysis (records : List Payload) (time_field value_field : String) :
    Except String AnalysisReply :=
  if records.isEmpty then .ok (.err "No records found for this dataset")
  else if !(hasColumn records time_field && hasColumn records value_field) then
    .ok (.err ("Required fields not found: " ++ time_field ++ ", " ++ value_field))
  else
    match mapExcept toDatetime (records.map (fun p => getCol p time_field)) with
    | .error e => .error e
    | .ok times => .ok (trendCore times (records.map (fun p => getCol p value_field)))

/-! ## Visualization (`src/data_hub/analytics.py`, class `DataVisualization`) -/

/-- What `generate_chart_data` hands back.  The `line`/`bar` and
`scatter` branches differ only in result key names, collapsed here into
`xy` with the chart type recorded. -/
inductive ChartReply where
  | err (msg : String) : ChartReply
  | xy (chart_type : String) (x : List Value) (y : List ℚ) (x_label y_label : String) : ChartReply
  | pie (labels : List Value) (values : List ℕ) (title : String) : ChartReply
  | histogram (bins : List ℚ) (values : List ℕ) (x_label : String) : ChartReply
deriving DecidableEq, Repr

/-- Whether the pandas dtype of the column is `object`/`category`: some
cell is a string, or every cell is null (an all-`None` column is object
dtype; a numbers-with-nulls column is numeric). -/
def isObjectDtype (col : List Value) : Bool :=
  col.any Value.isStr || col.all Value.isNull

/-- `Series.value_counts()`: frequency of each non-null value, most
frequent first (`dropna=True` is the default). -/
def valueCounts (col : List Value) : List (Value × ℕ) :=
  let nonNull := col.filter (fun v => !v.isNull)
  let counts := nonNull.dedup.map (fun v => (v, nonNull.count v))
  sortBy (fun a b => decide (b.2 ≤ a.2)) counts

/-- The bin a value falls into under `np.histogram(values, bins=20)`
with range `[lo, lo + 20*w]`: 20 half-open fixed-width buckets, the last
one closed on the right (hence the clamp to 19). -/
def binIndex (lo w v : ℚ) : ℕ :=
  min 19 (⌊(v - lo) / w⌋.toNat)

/-- `pd.isna` on one object-column cell. -/
def isNA : Value → Bool
  | .null => true
  | _ => false

/-- `DataVisualization.generate_chart_data` over the dataset's record
payloads.  Total: every branch of the Python returns a dictionary. -/
def generate_chart_data (records : List Payload) (chart_type : String)
    (x_field : String) (y_field : Option String) : ChartReply :=
  if records.isEmpty then .err "No records found for this dataset"
  else if !(hasColumn records x_field) then
    .err ("X field '" ++ x_field ++ "' not found in dataset")
  else if chart_type == "line" || chart_type == "bar" || chart_type == "scatter" then
    match y_field with
    | none => .err "Y field 'None' not found in dataset"
    | some yf =>
      if !(hasColumn records yf) then
        .err ("Y field '" ++ yf ++ "' not found in dataset")
      else
        let pairs := records.map (fun p => (getCol p x_field, toNumeric (getCol p yf)))
        let kept := pairs.filter (fun pr => !(isNA pr.1) && pr.2.isSome)
        .xy chart_type (kept.map Prod.fst) (kept.filterMap Prod.snd) x_field yf
  else if chart_type == "pie" then
    let col := records.map (fun p => getCol p x_field)
    if isObjectDtype col then
      let vc := valueCounts col
      .pie (vc.map Prod.fst) (vc.map Prod.snd) ("Distribution of " ++ x_field)
    else
      .err ("Field '" ++ x_field ++ "' is not categorical, cannot create pie chart")
  else if chart_type == "histogram" then
    let values := records.filterMap (fun p => toNumeric (getCol p x_field))
    if values.isEmpty then
      .err ("Field '" ++ x_field ++ "' has no numeric data for histogram")
    else
      let lo0 := minQ values
      let hi0 := maxQ values
      -- np.histogram expands a degenerate range to (lo - 0.5, hi + 0.5)
      let lo := if lo0 = hi0 then lo0 - 1/2 else lo0
      let hi := if lo0 = hi0 then hi0 + 1/2 else hi0
      let w := (hi - lo) / 20
      let edges := (List.range 21).map (fun (i : ℕ) => lo + (i : ℚ) * w)
      let counts := (List.range 20).map (fun k => values.countP (fun v => binIndex lo w v == k))
      .histogram edges counts x_field
  else .err ("Unsupported chart type: " ++ chart_type)

/-! ## Statement-level helpers for the trend theorems -/

/-- The parsed timestamp of an abstract (time-string, value) row; used
only to state hypotheses about datasets whose time column parses. -/
def timeOf (r : String × ℚ) : ℚ :=
  (parseTimestamp r.1).getD 0

/-- The record payload of one abstract (time-string, value) row. -/
def mkTrendRecord (tf vf : String) (r : String × ℚ) : Payload :=
  [(tf, .str r.1), (vf, .num r.2)]

/-- The pair-products `Σ_{i<j} (x_i - x_j) * (y_i - y_j)`, the quantity
the regression numerator and denominator expand to. -/
def pairSum : List (ℚ × ℚ) → ℚ
  | [] => 0
  | p :: l => (l.map (fun q => (p.1 - q.1) * (p.2 - q.2))).sum + pairSum l

/-! ## Concrete stores and inputs used by the witness theorems -/

/-- A store with two records in dataset 1 (one of which the witness
transform rejects) and one record in dataset 2. -/
def c9State : HubState :=
  { records := [{ dataset_id := 1, data := [("a", Value.num 1)] },
                { dataset_id := 1, data := [("boom", Value.null)] },
                { dataset_id := 2, data := [("a", Value.num 1)] }] }

/-- A transform that raises on the payload keyed `boom` and otherwise
prepends a field. -/
def c9Transform : Payload → Except String Payload :=
  fun p => if p.map Prod.fst = ["boom"] then .error "boom"
           else .ok (("b", Value.num 2) :: p)

/-! ## List-machinery lemmas -/

theorem insertBy_perm (le : α → α → Bool) (a : α) :
    ∀ l : List α, (insertBy le a l).Perm (a :: l) := by
  intro l
  induction l with
  | nil => simp [insertBy]
  | cons b t ih =>
    simp only [insertBy]
    by_cases h : le a b
    · simp [h]
    · simp only [h, if_neg]
      exact (List.Perm.cons b ih).trans (List.Perm.swap a b t)

theorem sortBy_perm (le : α → α → Bool) :
    ∀ l : List α, (sortBy le l).Perm l := by
  intro l
  induction l with
  | nil => simp [sortBy]
  | cons a t ih =>
    exact (insertBy_perm le a (sortBy le t)).trans (ih.cons a)

theorem insertBy_of_le {le : α → α → Bool} {a b : α} (l : List α)
    (h : le a b = true) : insertBy le a (b :: l) = a :: b :: l := by
  simp [insertBy, h]

/-- Insertion sort leaves an already-sorted list unchanged. -/
theorem sortBy_eq_self {le : α → α → Bool} :
    ∀ {l : List α}, l.Chain' (fun x y => le x y = true) → sortBy le l = l := by
  intro l
  induction l with
  | nil => intro _; rfl
  | cons a t ih =>
    intro h
    rcases List.chain'_cons'.mp h with ⟨hhead, htail⟩
    simp only [sortBy, ih htail]
    cases t with
    | nil => rfl
    | cons b t' => exact insertBy_of_le t' (hhead b rfl)

theorem mem_sortBy {le : α → α → Bool} {a : α} {l : List α} :
    a ∈ sortBy le l ↔ a ∈ l :=
  (sortBy_perm le l).mem_iff

/-- `(l.filterMap f).length` counts the elements where `f` fires. -/
theorem length_filterMap_eq_countP (f : α → Option β) :
    ∀ l : List α, (l.filterMap f).length = l.countP (fun a => (f a).isSome) := by
  intro l
  induction l with
  | nil => rfl
  | cons a t ih =>
    cases h : f a <;>
      simp [List.filterMap_cons, List.countP_cons, h, ih]


/-! ## Shared lemmas about the ingestion state machine -/

/-- Appending a nonempty string on the left never yields the empty
string. -/
theorem append_ne_empty_left (s t : String) (h : s.data ≠ []) : s ++ t ≠ "" := by
  intro he
  apply h
  have hd := congrArg String.data he
  simp only [String.data_append] at hd
  exact (List.append_eq_nil.mp hd).1

/-- In the dataset table after the `record_count` refresh, any row found
by id carries the recomputed count. -/
theorem find?_update_record_count (did c : ℕ) :
    ∀ (l : List Dataset) (d : Dataset),
      (l.map (fun d => if d.id == did then { d with record_count := c } else d)).find?
          (fun d => d.id == did) = some d →
      d.record_count = c := by
  intro l
  induction l with
  | nil => intro d h; simp at h
  | cons a t ih =>
    intro d h
    by_cases ha : a.id = did
    · simp only [List.map_cons, ha, beq_self_eq_true, if_true] at h
      rw [List.find?_cons_of_pos _ (by simp [ha])] at h
      cases h; rfl
    · have hb : (a.id == did) = false := by simp [ha]
      simp only [List.map_cons, hb, Bool.false_eq_true, if_false] at h
      rw [List.find?_cons_of_neg _ (by simp [ha])] at h
      exact ih d h

/-- Counting characteristics of the per-candidate loop. -/
theorem processItems_spec (did : ℕ) :
    ∀ items : List SourceItem,
      (processItems did items).2.1 = items.countP SourceItem.isDict
      ∧ (processItems did items).2.2 = items.countP (fun it => !it.isDict)
      ∧ (processItems did items).1.length = items.countP SourceItem.isDict := by
  intro items
  induction items with
  | nil => simp [processItems]
  | cons it rest ih =>
    cases it <;>
      simp [processItems, List.countP_cons, SourceItem.isDict, ih.1, ih.2.1, ih.2.2]

/-- Each candidate increments exactly one of the two counters. -/
theorem processItems_total (did : ℕ) :
    ∀ items : List SourceItem,
      (processItems did items).2.1 + (processItems did items).2.2 = items.length := by
  intro items
  induction items with
  | nil => rfl
  | cons it rest ih => cases it <;> simp [processItems] <;> omega

/-- Every row of a CSV conversion is a key-value map. -/
theorem countP_isDict_map_dict :
    ∀ rows : List Payload,
      (rows.map SourceItem.dict).countP SourceItem.isDict = rows.length
      ∧ (rows.map SourceItem.dict).countP (fun it => !it.isDict) = 0 := by
  intro rows
  induction rows with
  | nil => simp
  | cons p rest ih => simp [List.countP_cons, SourceItem.isDict, ih.1, ih.2]

/-- Shared lookup-failure shape of both ingestion paths (auxiliary; the
claim-level statement is derived from it below). -/
theorem ingest_unresolved_eq_aux
    (st : HubState) (source_id dataset_id : ℕ) (response : HttpResponse)
    (file_format : String) (jsonData : Except String JsonShape)
    (csvRows : Except String (List Payload))
    (h : findSource st source_id = none ∨ findDataset st dataset_id = none) :
    ingest_from_api st source_id dataset_id response
        = (st, .error "Source or dataset not found")
      ∧ ingest_from_file st source_id dataset_id file_format jsonData csvRows
        = (st, .error "Source or dataset not found") := by
  rcases h with h | h
  · cases hd : findDataset st dataset_id <;>
      simp [ingest_from_api, ingest_from_file, h, hd]
  · cases hs : findSource st source_id <;>
      simp [ingest_from_api, ingest_from_file, h, hs]

/-- If `finishIngestion` reports COMPLETED, the refreshed
`record_count` of the target dataset equals the count query over the
final record table. -/
theorem finishIngestion_completed_count (st : HubState) (sid did : ℕ)
    (outcome : Except String (List SourceItem)) (d : Dataset)
    (hst : (finishIngestion st sid did outcome).2.status = "COMPLETED")
    (hfind : findDataset (finishIngestion st sid did outcome).1 did = some d) :
    d.record_count = countRecords (finishIngestion st sid did outcome).1 did := by
  cases outcome with
  | error e => simp [finishIngestion] at hst
  | ok items =>
    simp only [finishIngestion, findDataset] at hfind ⊢
    exact find?_update_record_count did _ _ d hfind

/-! ## C10 -/

/-- C10: for both ingestion paths, a `sourceId` or `datasetId` that does
not resolve raises `ValueError "Source or dataset not found"` before any
`IngestionLog` row is created: the state (in particular its log table)
is returned unchanged and the failure is an exception, not a FAILED
log. -/
theorem ingest_unresolved_ids_raise_without_log
    (st : HubState) (source_id dataset_id : ℕ) (response : HttpResponse)
    (file_format : String) (jsonData : Except String JsonShape)
    (csvRows : Except String (List Payload))
    (h : findSource st source_id = none ∨ findDataset st dataset_id = none) :
    ingest_from_api st source_id dataset_id response
        = (st, .error "Source or dataset not found")
      ∧ ingest_from_file st source_id dataset_id file_format jsonData csvRows
        = (st, .error "Source or dataset not found") :=
  ingest_unresolved_eq_aux st source_id dataset_id response file_format jsonData csvRows h

/-- C10 witness: on the empty store neither id resolves, and both paths
return the untouched state together with the exception. -/
theorem ingest_unresolved_ids_raise_without_log_witness :
    ingest_from_api {} 1 1 { status_code := 200, body := .ok [] }
        = ({}, .error "Source or dataset not found")
      ∧ ingest_from_file {} 1 1 "json" (.ok (.jlist [])) (.ok [])
        = ({}, .error "Source or dataset not found") :=
  ingest_unresolved_ids_raise_without_log {} 1 1 _ "json" _ _ (Or.inl rfl)

/-! ## C3 -/

/-- C3 counterexample: on the empty store `sourceId = 42` does not
resolve, yet `create_dataset` does not fail — it inserts and returns a
dataset row bound to the dangling `sourceId`, contradicting the claimed
`SourceNotFound` failure. -/
theorem create_dataset_dangling_counterexample :
    findSource {} 42 = none
    ∧ (create_dataset {} "orphan" 42 "").2.source_id = 42
    ∧ (create_dataset {} "orphan" 42 "").1.datasets
        = [{ id := 1, name := "orphan", description := "", source_id := 42 }] := by
  decide

/-- C3 (amended): `create_dataset` performs no validation of `sourceId`:
even when it does not resolve, the operation creates and returns a
dataset bound to the dangling `sourceId` and never fails. -/
theorem create_dataset_no_source_validation
    (st : HubState) (name : String) (source_id : ℕ) (description : String)
    (_hdangling : findSource st source_id = none) :
    (create_dataset st name source_id description).2.source_id = source_id
    ∧ (create_dataset st name source_id description).1.datasets
        = st.datasets ++ [(create_dataset st name source_id description).2]
    ∧ (create_dataset st name source_id description).1.sources = st.sources :=
  ⟨rfl, rfl, rfl⟩

/-- C3 amended-claim witness, at the concrete dangling id 42. -/
theorem create_dataset_no_source_validation_witness :
    (create_dataset {} "orphan" 42 "").2.source_id = 42
    ∧ (create_dataset {} "orphan" 42 "").1.datasets
        = ([] : List Dataset) ++ [(create_dataset {} "orphan" 42 "").2]
    ∧ (create_dataset {} "orphan" 42 "").1.sources = ([] : List DataSource) :=
  create_dataset_no_source_validation {} "orphan" 42 "" rfl

/-! ## C8 -/

/-- C8: an `ingest_from_api` run whose HTTP GET returns a non-200 status
is surfaced as a returned log with status FAILED and a non-empty error
message — not as a thrown exception — and neither the record table nor
the dataset table (hence `record_count`) is touched. -/
theorem ingest_from_api_http_failure
    (st : HubState) (source_id dataset_id : ℕ) (response : HttpResponse)
    (hcode : response.status_code ≠ 200)
    (hs : (findSource st source_id).isSome)
    (hd : (findDataset st dataset_id).isSome) :
    ∃ log msg,
      (ingest_from_api st source_id dataset_id response).2 = .ok log
      ∧ log.status = "FAILED"
      ∧ log.error_message = some msg
      ∧ msg ≠ ""
      ∧ (ingest_from_api st source_id dataset_id response).1.records = st.records
      ∧ (ingest_from_api st source_id dataset_id response).1.datasets = st.datasets
      ∧ (ingest_from_api st source_id dataset_id response).1.logs = st.logs ++ [log] := by
  obtain ⟨s, hs'⟩ := Option.isSome_iff_exists.mp hs
  obtain ⟨d, hd'⟩ := Option.isSome_iff_exists.mp hd
  refine ⟨{ dataset_id := dataset_id, source_id := source_id, status := "FAILED",
            error_message :=
              some ("API request failed with status " ++ natRepr response.status_code) },
          "API request failed with status " ++ natRepr response.status_code, ?_⟩
  simp only [ingest_from_api, hs', hd']
  rw [if_pos hcode]
  simp only [finishIngestion]
  refine ⟨?_, ?_, ?_, append_ne_empty_left _ _ (by decide), ?_, ?_, ?_⟩ <;> trivial

/-- C8 witness: a one-source one-dataset store and an HTTP 500
response. -/
theorem ingest_from_api_http_failure_witness :
    ∃ log msg,
      (ingest_from_api
          { sources := [{ id := 1, name := "s", source_type := "API" }],
            datasets := [{ id := 1, name := "d", source_id := 1 }] }
          1 1 { status_code := 500, body := .ok [] }).2 = .ok log
      ∧ log.status = "FAILED"
      ∧ log.error_message = some msg
      ∧ msg ≠ ""
      ∧ (ingest_from_api
          { sources := [{ id := 1, name := "s", source_type := "API" }],
            datasets := [{ id := 1, name := "d", source_id := 1 }] }
          1 1 { status_code := 500, body := .ok [] }).1.records
          = ({ sources := [{ id := 1, name := "s", source_type := "API" }],
               datasets := [{ id := 1, name := "d", source_id := 1 }] } : HubState).records
      ∧ (ingest_from_api
          { sources := [{ id := 1, name := "s", source_type := "API" }],
            datasets := [{ id := 1, name := "d", source_id := 1 }] }
          1 1 { status_code := 500, body := .ok [] }).1.datasets
          = ({ sources := [{ id := 1, name := "s", source_type := "API" }],
               datasets := [{ id := 1, name := "d", source_id := 1 }] } : HubState).datasets
      ∧ (ingest_from_api
          { sources := [{ id := 1, name := "s", source_type := "API" }],
            datasets := [{ id := 1, name := "d", source_id := 1 }] }
          1 1 { status_code := 500, body := .ok [] }).1.logs
          = ({ sources := [{ id := 1, name := "s", source_type := "API" }],
               datasets := [{ id := 1, name := "d", source_id := 1 }] } : HubState).logs ++ [log] :=
  ingest_from_api_http_failure _ 1 1 _ (by decide) (by decide) (by decide)

/-! ## C1 -/

/-- C1: whenever either ingestion path returns a log with status
COMPLETED, the `record_count` stored on the target dataset equals the
fresh count query over the final record table (the count is recomputed
after the bulk insert, not maintained incrementally). -/
theorem completed_ingestion_record_count_exact
    (st : HubState) (source_id dataset_id : ℕ) (response : HttpResponse)
    (file_format : String) (jsonData : Except String JsonShape)
    (csvRows : Except String (List Payload)) :
    (∀ log d,
      (ingest_from_api st source_id dataset_id response).2 = .ok log →
      log.status = "COMPLETED" →
      findDataset (ingest_from_api st source_id dataset_id response).1 dataset_id = some d →
      d.record_count
        = countRecords (ingest_from_api st source_id dataset_id response).1 dataset_id)
    ∧ (∀ log d,
      (ingest_from_file st source_id dataset_id file_format jsonData csvRows).2 = .ok log →
      log.status = "COMPLETED" →
      findDataset (ingest_from_file st source_id dataset_id file_format jsonData csvRows).1
          dataset_id = some d →
      d.record_count
        = countRecords
            (ingest_from_file st source_id dataset_id file_format jsonData csvRows).1
            dataset_id) := by
  constructor
  · intro log d hlog hstatus hfind
    cases hs : findSource st source_id with
    | none =>
      rcases (ingest_unresolved_eq_aux st source_id dataset_id response
        file_format jsonData csvRows (Or.inl hs)).1 with heq
      rw [heq] at hlog
      exact absurd hlog (by simp)
    | some s =>
      cases hd : findDataset st dataset_id with
      | none =>
        rcases (ingest_unresolved_eq_aux st source_id dataset_id response
          file_format jsonData csvRows (Or.inr hd)).1 with heq
        rw [heq] at hlog
        exact absurd hlog (by simp)
      | some d0 =>
        simp only [ingest_from_api, hs, hd, Except.ok.injEq] at hlog hfind ⊢
        exact finishIngestion_completed_count st source_id dataset_id _ d
          (hlog ▸ hstatus) hfind
  · intro log d hlog hstatus hfind
    cases hs : findSource st source_id with
    | none =>
      rcases (ingest_unresolved_eq_aux st source_id dataset_id response
        file_format jsonData csvRows (Or.inl hs)).2 with heq
      rw [heq] at hlog
      exact absurd hlog (by simp)
    | some s =>
      cases hd : findDataset st dataset_id with
      | none =>
        rcases (ingest_unresolved_eq_aux st source_id dataset_id response
          file_format jsonData csvRows (Or.inr hd)).2 with heq
        rw [heq] at hlog
        exact absurd hlog (by simp)
      | some d0 =>
        simp only [ingest_from_file, hs, hd, Except.ok.injEq] at hlog hfind ⊢
        exact finishIngestion_completed_count st source_id dataset_id _ d
          (hlog ▸ hstatus) hfind

/-- C1 witness: an 8-item API payload ingested into a store that already
holds one record of the dataset; the refreshed count is the exact row
count 9. -/
theorem completed_ingestion_record_count_exact_witness :
    ∀ log d,
      (ingest_from_api
          { sources := [{ id := 1, name := "s", source_type := "API" }],
            datasets := [{ id := 1, name := "d", source_id := 1 }],
            records := [{ dataset_id := 1, data := [("k", Value.num 0)] }] }
          1 1
          { status_code := 200,
            body := .ok (List.replicate 8 (.dict [("k", Value.num 1)])) }).2 = .ok log →
      log.status = "COMPLETED" →
      findDataset
          (ingest_from_api
            { sources := [{ id := 1, name := "s", source_type := "API" }],
              datasets := [{ id := 1, name := "d", source_id := 1 }],
              records := [{ dataset_id := 1, data := [("k", Value.num 0)] }] }
            1 1
            { status_code := 200,
              body := .ok (List.replicate 8 (.dict [("k", Value.num 1)])) }).1 1 = some d →
      d.record_count
        = countRecords
            (ingest_from_api
              { sources := [{ id := 1, name := "s", source_type := "API" }],
                datasets := [{ id := 1, name := "d", source_id := 1 }],
                records := [{ dataset_id := 1, data := [("k", Value.num 0)] }] }
              1 1
              { status_code := 200,
                body := .ok (List.replicate 8 (.dict [("k", Value.num 1)])) }).1 1 :=
  (completed_ingestion_record_count_exact _ 1 1 _ "json" (.ok (.jlist [])) (.ok [])).1

/-! ## C2 -/

/-- C2: a COMPLETED ingestion run (either path) counts every candidate
item exactly once — `records_processed` is the number of key-value-map
candidates, `records_failed` the number of non-map candidates, and their
sum is the total number of candidates extracted from the source
payload. -/
theorem completed_ingestion_counts_partition
    (st : HubState) (source_id dataset_id : ℕ) :
    (∀ (response : HttpResponse) (items : List SourceItem) (log : DataIngestionLog),
      response.body = .ok items →
      (ingest_from_api st source_id dataset_id response).2 = .ok log →
      log.status = "COMPLETED" →
      log.records_processed = items.countP SourceItem.isDict
      ∧ log.records_failed = items.countP (fun it => !it.isDict)
      ∧ log.records_processed + log.records_failed = items.length)
    ∧ (∀ (file_format : String) (shape : JsonShape) (csvRows : Except String (List Payload))
        (log : DataIngestionLog),
      strLower file_format = "json" →
      (ingest_from_file st source_id dataset_id file_format (.ok shape) csvRows).2 = .ok log →
      log.status = "COMPLETED" →
      log.records_processed = (jsonItems shape).countP SourceItem.isDict
      ∧ log.records_failed = (jsonItems shape).countP (fun it => !it.isDict)
      ∧ log.records_processed + log.records_failed = (jsonItems shape).length)
    ∧ (∀ (file_format : String) (rows : List Payload) (jsonData : Except String JsonShape)
        (log : DataIngestionLog),
      strLower file_format = "csv" →
      (ingest_from_file st source_id dataset_id file_format jsonData (.ok rows)).2 = .ok log →
      log.status = "COMPLETED" →
      log.records_processed = rows.length ∧ log.records_failed = 0) := by
  refine ⟨?_, ?_, ?_⟩
  · intro response items log hbody hlog hstatus
    cases hs : findSource st source_id with
    | none =>
      rw [(ingest_unresolved_eq_aux st source_id dataset_id response "json"
        (.ok (.jlist [])) (.ok []) (Or.inl hs)).1] at hlog
      exact absurd hlog (by simp)
    | some s =>
      cases hd : findDataset st dataset_id with
      | none =>
        rw [(ingest_unresolved_eq_aux st source_id dataset_id response "json"
          (.ok (.jlist [])) (.ok []) (Or.inr hd)).1] at hlog
        exact absurd hlog (by simp)
      | some d0 =>
        by_cases hcode : response.status_code = 200
        · simp only [ingest_from_api, hs, hd, hcode, ne_eq, not_true_eq_false, if_false,
            ite_false, hbody, finishIngestion, Except.ok.injEq] at hlog
          subst hlog
          rcases processItems_spec dataset_id items with ⟨h1, h2, _h3⟩
          exact ⟨h1, h2, processItems_total dataset_id items⟩
        · simp only [ingest_from_api, hs, hd] at hlog
          rw [if_pos hcode] at hlog
          simp only [finishIngestion, Except.ok.injEq] at hlog
          simp [← hlog] at hstatus
  · intro file_format shape csvRows log hfmt hlog hstatus
    cases hs : findSource st source_id with
    | none =>
      rw [(ingest_unresolved_eq_aux st source_id dataset_id
        { status_code := 0, body := .ok [] } file_format (.ok shape) csvRows
        (Or.inl hs)).2] at hlog
      exact absurd hlog (by simp)
    | some s =>
      cases hd : findDataset st dataset_id with
      | none =>
        rw [(ingest_unresolved_eq_aux st source_id dataset_id
          { status_code := 0, body := .ok [] } file_format (.ok shape) csvRows
          (Or.inr hd)).2] at hlog
        exact absurd hlog (by simp)
      | some d0 =>
        simp only [ingest_from_file, hs, hd, hfmt, if_true, ite_true, Except.map,
          finishIngestion, Except.ok.injEq] at hlog
        subst hlog
        rcases processItems_spec dataset_id (jsonItems shape) with ⟨h1, h2, _h3⟩
        exact ⟨h1, h2, processItems_total dataset_id (jsonItems shape)⟩
  · intro file_format rows jsonData log hfmt hlog hstatus
    cases hs : findSource st source_id with
    | none =>
      rw [(ingest_unresolved_eq_aux st source_id dataset_id
        { status_code := 0, body := .ok [] } file_format jsonData (.ok rows)
        (Or.inl hs)).2] at hlog
      exact absurd hlog (by simp)
    | some s =>
      cases hd : findDataset st dataset_id with
      | none =>
        rw [(ingest_unresolved_eq_aux st source_id dataset_id
          { status_code := 0, body := .ok [] } file_format jsonData (.ok rows)
          (Or.inr hd)).2] at hlog
        exact absurd hlog (by simp)
      | some d0 =>
        have hjson : ¬ strLower file_format = "json" := by rw [hfmt]; decide
        simp only [ingest_from_file, hs, hd, hjson, hfmt, if_false, if_true, ite_true,
          ite_false, Except.map, finishIngestion, Except.ok.injEq] at hlog
        subst hlog
        rcases processItems_spec dataset_id (rows.map .dict) with ⟨h1, h2, _h3⟩
        rcases countP_isDict_map_dict rows with ⟨hc1, hc2⟩
        exact ⟨h1.trans hc1, h2.trans hc2⟩

/-- C2 witness: a mixed API payload (two maps, one scalar) yields
`processed = 2`, `failed = 1`, summing to the three candidates. -/
theorem completed_ingestion_counts_partition_witness :
    ∀ log,
      (({ status_code := 200,
          body := .ok [.dict [("a", Value.num 1)], .nondict, .dict []] } : HttpResponse).body
        = .ok [.dict [("a", Value.num 1)], .nondict, .dict []]) →
      (ingest_from_api
          { sources := [{ id := 1, name := "s", source_type := "API" }],
            datasets := [{ id := 1, name := "d", source_id := 1 }] }
          1 1
          { status_code := 200,
            body := .ok [.dict [("a", Value.num 1)], .nondict, .dict []] }).2 = .ok log →
      log.status = "COMPLETED" →
      log.records_processed
          = ([.dict [("a", Value.num 1)], .nondict, .dict []] : List SourceItem).countP
              SourceItem.isDict
      ∧ log.records_failed
          = ([.dict [("a", Value.num 1)], .nondict, .dict []] : List SourceItem).countP
              (fun it => !it.isDict)
      ∧ log.records_processed + log.records_failed
          = ([.dict [("a", Value.num 1)], .nondict, .dict []] : List SourceItem).length :=
  fun log _ =>
    (completed_ingestion_counts_partition _ 1 1).1 _ _ log rfl

/-! ## C9 -/

/-- Zipping a mapped list with the original pairs each element with its
image. -/
theorem zip_map_left (g : α → α) : ∀ l : List α,
    (l.map g).zip l = l.map (fun a => (g a, a))
  | [] => rfl
  | a :: t => by simp [List.zip_cons_cons, zip_map_left g t]

/-- The counting fold of `transform_data` counts exactly the records
whose transform returned normally with a changed payload. -/
theorem transform_count_fold (f : Payload → Except String Payload) :
    ∀ (l : List DataRecord) (acc : ℕ),
      l.foldl
          (fun c r =>
            match f r.data with
            | .ok p => if p != r.data then c + 1 else c
            | .error _ => c) acc
        = acc + l.countP (transformChanged f) := by
  intro l
  induction l with
  | nil => intro acc; simp
  | cons r t ih =>
    intro acc
    rw [List.foldl_cons, ih]
    have hstep : (match f r.data with
        | Except.ok p => if (p != r.data) = true then acc + 1 else acc
        | Except.error _ => acc) = acc + (if transformChanged f r then 1 else 0) := by
      unfold transformChanged
      cases f r.data with
      | ok p => by_cases h : p = r.data <;> simp [h]
      | error e => simp
    rw [hstep, List.countP_cons]
    by_cases h : transformChanged f r <;> simp +arith [h]

/-- C9: `transform_data` applies the transform to each record of the
dataset independently — a record whose transform raises keeps its
payload while the rest are still processed — and returns exactly the
number of records whose payload actually changed (transform returned
normally with a different payload; raising or returning the same payload
does not count). -/
theorem transform_data_spec (st : HubState) (dataset_id : ℕ)
    (f : Payload → Except String Payload) :
    (transform_data st dataset_id f).1.records
        = st.records.map (fun r =>
            if r.dataset_id == dataset_id then transformRecord f r else r)
    ∧ (∀ r e, f r.data = .error e → transformRecord f r = r)
    ∧ (transform_data st dataset_id f).2
        = st.records.countP
            (fun r => r.dataset_id == dataset_id && transformChanged f r)
    ∧ (transform_data st dataset_id f).2
        = (((transform_data st dataset_id f).1.records).zip st.records).countP
            (fun pr => pr.1.data != pr.2.data) := by
  refine ⟨rfl, ?_, ?_, ?_⟩
  · intro r e hf
    simp [transformRecord, hf]
  · show (st.records.filter (fun r => r.dataset_id == dataset_id)).foldl _ 0 = _
    rw [transform_count_fold f _ 0, Nat.zero_add, List.countP_filter]
    exact List.countP_congr (fun r _ => by rw [Bool.and_comm])
  · show (st.records.filter (fun r => r.dataset_id == dataset_id)).foldl _ 0 = _
    rw [transform_count_fold f _ 0, Nat.zero_add, List.countP_filter]
    have hzip :
        ((st.records.map (fun r =>
            if r.dataset_id == dataset_id then transformRecord f r else r)).zip st.records)
          = st.records.map (fun r =>
              ((if r.dataset_id == dataset_id then transformRecord f r else r), r)) :=
      zip_map_left _ st.records
    show _ = (((st.records.map (fun r =>
        if r.dataset_id == dataset_id then transformRecord f r else r)).zip
          st.records).countP (fun pr => pr.1.data != pr.2.data))
    rw [hzip, List.countP_map]
    refine List.countP_congr (fun r _ => ?_)
    by_cases hdid : r.dataset_id = dataset_id
    · simp only [Function.comp, hdid, beq_self_eq_true, if_true, Bool.true_and]
      cases hf : f r.data with
      | ok p => simp [transformChanged, transformRecord, hf]
      | error e => simp [transformChanged, transformRecord, hf]
    · have : (r.dataset_id == dataset_id) = false := by simp [hdid]
      simp [Function.comp, this]

/-- C9 witness: one record transformed (payload changes), one record
whose transform raises (payload kept), one record outside the dataset;
the count is 1. -/
theorem transform_data_spec_witness :
    (transform_data c9State 1 c9Transform).1.records
        = c9State.records.map (fun r =>
            if r.dataset_id == 1 then transformRecord c9Transform r else r)
    ∧ (∀ r e, c9Transform r.data = .error e → transformRecord c9Transform r = r)
    ∧ (transform_data c9State 1 c9Transform).2
        = c9State.records.countP
            (fun r => r.dataset_id == 1 && transformChanged c9Transform r)
    ∧ (transform_data c9State 1 c9Transform).2
        = (((transform_data c9State 1 c9Transform).1.records).zip c9State.records).countP
            (fun pr => pr.1.data != pr.2.data) :=
  transform_data_spec c9State 1 c9Transform

/-! ## C6 -/

/-- Pointwise sums of mapped lists split. -/
theorem sum_map_add_distrib (f g : ℕ → ℕ) :
    ∀ l : List ℕ, (l.map (fun k => f k + g k)).sum = (l.map f).sum + (l.map g).sum := by
  intro l
  induction l with
  | nil => rfl
  | cons a t ih => simp +arith [ih]

/-- Summing an indicator of `k` over `range n` gives 1 when `k < n`. -/
theorem sum_range_indicator (k : ℕ) :
    ∀ n : ℕ, k < n → ((List.range n).map (fun j => if k == j then 1 else 0)).sum = 1 := by
  intro n
  induction n with
  | zero => omega
  | succ m ih =>
    intro hk
    rw [List.range_succ, List.map_append, List.sum_append]
    by_cases hkm : k = m
    · have hm : ((List.range m).map (fun j => if k == j then 1 else 0)).sum = 0 := by
        rw [List.sum_eq_zero]
        intro x hx
        rcases List.mem_map.mp hx with ⟨j, hj, hxj⟩
        have hne : (k == j) = false := by
          have := List.mem_range.mp hj
          simp only [beq_eq_false_iff_ne, ne_eq]
          omega
        rw [← hxj, hne]
        rfl
      rw [hm]
      simp [hkm]
    · have hklt : k < m := by omega
      rw [ih hklt]
      simp [hkm]

/-- Binning a list by any function into `range n` and summing the
per-bin counts recovers the list length. -/
theorem sum_countP_range (n : ℕ) (f : α → ℕ) :
    ∀ l : List α, (∀ a ∈ l, f a < n) →
      ((List.range n).map (fun k => l.countP (fun a => f a == k))).sum = l.length := by
  intro l
  induction l with
  | nil => intro _; simp
  | cons a t ih =>
    intro h
    have hcong : ((List.range n).map (fun k => (a :: t).countP (fun x => f x == k)))
        = (List.range n).map (fun k =>
            t.countP (fun x => f x == k) + (if f a == k then 1 else 0)) := by
      refine List.map_congr_left (fun k _ => ?_)
      rw [List.countP_cons]
    rw [hcong, sum_map_add_distrib, ih (fun x hx => h x (List.mem_cons_of_mem a hx)),
      sum_range_indicator (f a) n (h a (List.mem_cons_self a t))]
    simp

/-- Every value lands in one of the 20 buckets. -/
theorem binIndex_lt (lo w v : ℚ) : binIndex lo w v < 20 := by
  unfold binIndex; omega

/-- C6: the histogram branch of `generate_chart_data` bins the coerced
numeric values of the field into 20 fixed-width buckets (21 edges) whose
counts sum to the number of non-null numeric values, and returns a
structured error when no numeric values remain after coercion. -/
theorem histogram_counts_sum (records : List Payload) (x_field : String) :
    ((records.filterMap (fun p => toNumeric (getCol p x_field))) = [] →
      ∃ msg, generate_chart_data records "histogram" x_field none = .err msg)
    ∧ (∀ edges counts xl,
        generate_chart_data records "histogram" x_field none = .histogram edges counts xl →
        counts.sum = (records.filterMap (fun p => toNumeric (getCol p x_field))).length
        ∧ counts.length = 20 ∧ edges.length = 21) := by
  have h1 : (("histogram" : String) == "line" || ("histogram" : String) == "bar"
      || ("histogram" : String) == "scatter") = false := by decide
  have h2 : (("histogram" : String) == "pie") = false := by decide
  have h3 : (("histogram" : String) == "histogram") = true := by decide
  by_cases he : records.isEmpty
  · constructor
    · intro _
      exact ⟨"No records found for this dataset", by simp [generate_chart_data, he]⟩
    · intro edges counts xl hres
      simp [generate_chart_data, he] at hres
  · by_cases hc : hasColumn records x_field
    · by_cases hv : records.filterMap (fun p => toNumeric (getCol p x_field)) = []
      · constructor
        · intro _
          refine ⟨"Field '" ++ x_field ++ "' has no numeric data for histogram", ?_⟩
          simp [generate_chart_data, he, hc, h1, h2, h3, List.isEmpty_iff, hv]
        · intro edges counts xl hres
          simp [generate_chart_data, he, hc, h1, h2, h3, List.isEmpty_iff, hv] at hres
      · constructor
        · intro hcontra; exact absurd hcontra hv
        · intro edges counts xl hres
          simp only [generate_chart_data, he, hc, h1, h2, h3, Bool.not_true,
            Bool.false_eq_true, if_false, if_true, ite_true, ite_false,
            List.isEmpty_iff, hv, ChartReply.histogram.injEq] at hres
          rcases hres with ⟨hedges, hcounts, _⟩
          refine ⟨?_, ?_, ?_⟩
          · rw [← hcounts]
            exact sum_countP_range 20 _ _ (fun a _ => binIndex_lt _ _ a)
          · rw [← hcounts]; simp
          · rw [← hedges]; simp
    · constructor
      · intro _
        refine ⟨"X field '" ++ x_field ++ "' not found in dataset", ?_⟩
        simp [generate_chart_data, he, hc]
      · intro edges counts xl hres
        simp [generate_chart_data, he, hc] at hres

/-- C6 witness: two numeric records; the two bin hits sum to 2, with 20
counts over 21 edges. -/
theorem histogram_counts_sum_witness :
    ([1, 0, 0, 0, 0, 0, 0, 0, 0, 0, 0, 0, 0, 0, 0, 0, 0, 0, 0, 1] : List ℕ).sum
        = (([[("a", Value.num 0)], [("a", Value.num 10)]] : List Payload).filterMap
            (fun p => toNumeric (getCol p "a"))).length
    ∧ ([1, 0, 0, 0, 0, 0, 0, 0, 0, 0, 0, 0, 0, 0, 0, 0, 0, 0, 0, 1] : List ℕ).length = 20
    ∧ ((List.range 21).map (fun i => (i : ℚ) / 2)).length = 21 :=
  (histogram_counts_sum [[("a", Value.num 0)], [("a", Value.num 10)]] "a").2
    ((List.range 21).map (fun i => (i : ℚ) / 2))
    [1, 0, 0, 0, 0, 0, 0, 0, 0, 0, 0, 0, 0, 0, 0, 0, 0, 0, 0, 1] "a"
    (by with_unfolding_all decide)

/-! ## C7 -/

/-- Membership characterisation of `valueCounts`: the pairs are exactly
the non-null column values with their multiplicity in the column. -/
theorem mem_valueCounts {col : List Value} {pr : Value × ℕ} :
    pr ∈ valueCounts col ↔ pr.1 ∈ col ∧ pr.1.isNull = false ∧ pr.2 = col.count pr.1 := by
  unfold valueCounts
  rw [mem_sortBy, List.mem_map]
  constructor
  · rintro ⟨v, hv, rfl⟩
    have hvmem := List.mem_dedup.mp hv
    rcases List.mem_filter.mp hvmem with ⟨hcol, hnn⟩
    have hnn' : v.isNull = false := by simpa using hnn
    have hfc : List.count v (col.filter (fun x => !x.isNull)) = List.count v col :=
      List.count_filter (by simp [hnn'])
    exact ⟨hcol, hnn', hfc⟩
  · rintro ⟨hcol, hnn, hcnt⟩
    refine ⟨pr.1, List.mem_dedup.mpr (List.mem_filter.mpr ⟨hcol, by simp [hnn]⟩), ?_⟩
    cases pr with
    | mk v c =>
      have hnn2 : (!v.isNull) = true := by simp_all
      have hfc : List.count v (col.filter (fun x => !x.isNull)) = List.count v col :=
        List.count_filter hnn2
      have hc2 : c = List.count v col := hcnt
      show (v, List.count v (col.filter (fun x => !x.isNull))) = (v, c)
      rw [hfc, ← hc2]

/-- C7: the pie branch of `generate_chart_data` never raises; on a
column that is not object/category-typed (a numeric column) it returns
an error payload, and on a categorical column it returns the
label-to-count frequency of the column's (non-null) values. -/
theorem pie_numeric_error_categorical_counts (records : List Payload) (x_field : String) :
    (records ≠ [] → hasColumn records x_field = true →
      isObjectDtype (records.map (fun p => getCol p x_field)) = false →
      generate_chart_data records "pie" x_field none
        = .err ("Field '" ++ x_field ++ "' is not categorical, cannot create pie chart"))
    ∧ (records ≠ [] → hasColumn records x_field = true →
      isObjectDtype (records.map (fun p => getCol p x_field)) = true →
      generate_chart_data records "pie" x_field none
        = .pie ((valueCounts (records.map (fun p => getCol p x_field))).map Prod.fst)
               ((valueCounts (records.map (fun p => getCol p x_field))).map Prod.snd)
               ("Distribution of " ++ x_field))
    ∧ (∀ pr, pr ∈ valueCounts (records.map (fun p => getCol p x_field)) →
        pr.1.isNull = false
        ∧ pr.2 = (records.map (fun p => getCol p x_field)).count pr.1)
    ∧ (∀ v, v ∈ records.map (fun p => getCol p x_field) → v.isNull = false →
        v ∈ (valueCounts (records.map (fun p => getCol p x_field))).map Prod.fst) := by
  have hp1 : (("pie" : String) == "line" || ("pie" : String) == "bar"
      || ("pie" : String) == "scatter") = false := by decide
  have hp2 : (("pie" : String) == "pie") = true := by decide
  refine ⟨?_, ?_, ?_, ?_⟩
  · intro hne hc hdtype
    have he : records.isEmpty = false := by simp [List.isEmpty_iff, hne]
    simp [generate_chart_data, he, hc, hp1, hp2, hdtype]
  · intro hne hc hdtype
    have he : records.isEmpty = false := by simp [List.isEmpty_iff, hne]
    simp [generate_chart_data, he, hc, hp1, hp2, hdtype]
  · intro pr hpr
    exact ⟨(mem_valueCounts.mp hpr).2.1, (mem_valueCounts.mp hpr).2.2⟩
  · intro v hv hnn
    exact List.mem_map.mpr
      ⟨(v, (records.map (fun p => getCol p x_field)).count v),
       mem_valueCounts.mpr ⟨hv, hnn, rfl⟩, rfl⟩

/-- C7 witness: a numeric column yields the error payload, a categorical
column the frequency table. -/
theorem pie_numeric_error_categorical_counts_witness :
    generate_chart_data [[("n", Value.num 1)]] "pie" "n" none
        = .err ("Field '" ++ "n" ++ "' is not categorical, cannot create pie chart")
    ∧ generate_chart_data
        [[("c", Value.str "x")], [("c", Value.str "x")], [("c", Value.str "y")]] "pie" "c" none
        = .pie ((valueCounts (([[("c", Value.str "x")], [("c", Value.str "x")],
                  [("c", Value.str "y")]] : List Payload).map (fun p => getCol p "c"))).map Prod.fst)
               ((valueCounts (([[("c", Value.str "x")], [("c", Value.str "x")],
                  [("c", Value.str "y")]] : List Payload).map (fun p => getCol p "c"))).map Prod.snd)
               ("Distribution of " ++ "c") :=
  ⟨(pie_numeric_error_categorical_counts [[("n", Value.num 1)]] "n").1
      (by decide) (by decide) (by decide),
   (pie_numeric_error_categorical_counts
      [[("c", Value.str "x")], [("c", Value.str "x")], [("c", Value.str "y")]] "c").2.1
      (by decide) (by decide) (by decide)⟩

/-! ## C4 -/

/-- `mapExcept` succeeds pointwise when every element converts. -/
theorem mapExcept_ok_of_forall (f : α → Except ε β) (g : α → β) :
    ∀ l : List α, (∀ a ∈ l, f a = .ok (g a)) → mapExcept f l = .ok (l.map g) := by
  intro l
  induction l with
  | nil => intro _; rfl
  | cons a t ih =>
    intro h
    have ha := h a (List.mem_cons_self a t)
    have ht := ih (fun x hx => h x (List.mem_cons_of_mem a hx))
    simp [mapExcept, ha, ht]

/-- C4 counterexample: a record whose time field holds an unparseable
string makes `run_trend_analysis` raise (the `pd.to_datetime` call sits
outside the `try` block), instead of dropping the row and returning a
structured error result. -/
theorem trend_unparseable_time_raises_counterexample :
    run_trend_analysis
        [[("t", Value.str "garbage"), ("v", Value.num 1)],
         [("t", Value.str "2024-01-05"), ("v", Value.num 2)]] "t" "v"
      = .error "Unknown datetime string format: garbage" := by
  decide

/-- C4 (amended): `run_trend_analysis` drops rows whose time cell is
null or whose value cell is not numeric; a non-null unparseable time
value instead raises out of the function.  Provided every time cell
converts, the function never raises, and it returns the structured
`{"error": …}` result when the fields are missing or when fewer than 2
valid (time, value) pairs remain after the dropping. -/
theorem trend_error_handling (records : List Payload) (tf vf : String) :
    ((hasColumn records tf && hasColumn records vf) = false →
      ∃ msg, run_trend_analysis records tf vf = .ok (.err msg))
    ∧ (∀ times, mapExcept toDatetime (records.map (fun p => getCol p tf)) = .ok times →
        ∃ reply, run_trend_analysis records tf vf = .ok reply)
    ∧ (∀ times, mapExcept toDatetime (records.map (fun p => getCol p tf)) = .ok times →
        records ≠ [] →
        (hasColumn records tf && hasColumn records vf) = true →
        (validPairs times (records.map (fun p => getCol p vf))).length < 2 →
        run_trend_analysis records tf vf
          = .ok (.err "Not enough valid data points for trend analysis"))
    ∧ (∀ (times : List (Option ℚ)) (vals : List Value),
        (validPairs times vals).length
          = (times.zip vals).countP (fun r => r.1.isSome && (toNumeric r.2).isSome)) := by
  refine ⟨?_, ?_, ?_, ?_⟩
  · intro hcols
    by_cases he : records.isEmpty
    · exact ⟨"No records found for this dataset", by simp [run_trend_analysis, he]⟩
    · exact ⟨"Required fields not found: " ++ tf ++ ", " ++ vf,
        by simp [run_trend_analysis, he, hcols]⟩
  · intro times htimes
    by_cases he : records.isEmpty
    · exact ⟨.err "No records found for this dataset", by simp [run_trend_analysis, he]⟩
    · by_cases hcols : (hasColumn records tf && hasColumn records vf) = true
      · exact ⟨trendCore times (records.map (fun p => getCol p vf)),
          by simp [run_trend_analysis, he, hcols, htimes]⟩
      · exact ⟨.err ("Required fields not found: " ++ tf ++ ", " ++ vf),
          by simp [run_trend_analysis, he, hcols]⟩
  · intro times htimes hne hcols hlen
    have he : records.isEmpty = false := by simp [List.isEmpty_iff, hne]
    simp [run_trend_analysis, he, hcols, htimes, trendCore, hlen]
  · intro times vals
    unfold validPairs
    rw [length_filterMap_eq_countP, (sortBy_perm timeKeyLE (times.zip vals)).countP_eq]
    refine List.countP_congr (fun r _ => ?_)
    rcases r with ⟨t, v⟩
    cases t with
    | none => simp
    | some tq => cases hv : toNumeric v <;> simp [hv]

/-- C4 amended-claim witness: both time cells parse, one value cell is
non-numeric, leaving a single valid pair — the run returns the
structured insufficient-data error without raising. -/
theorem trend_error_handling_witness :
    run_trend_analysis
        [[("t", Value.str "2024-01-01"), ("v", Value.str "abc")],
         [("t", Value.str "2024-01-02"), ("v", Value.num 5)]] "t" "v"
      = .ok (.err "Not enough valid data points for trend analysis") :=
  (trend_error_handling
      [[("t", Value.str "2024-01-01"), ("v", Value.str "abc")],
       [("t", Value.str "2024-01-02"), ("v", Value.num 5)]] "t" "v").2.2.1
    [some 19723, some 19724]
    (by decide) (by decide) (by decide) (by decide)

/-! ## C5: regression algebra -/

/-- Head expansion of the pair-product sum. -/
theorem headExpand (p : ℚ × ℚ) :
    ∀ l : List (ℚ × ℚ),
      (l.map (fun q => (p.1 - q.1) * (p.2 - q.2))).sum
        = (l.length : ℚ) * (p.1 * p.2) - p.1 * (l.map Prod.snd).sum
          - p.2 * (l.map Prod.fst).sum + (l.map (fun q => q.1 * q.2)).sum := by
  intro l
  induction l with
  | nil => simp
  | cons q t ih =>
    simp only [List.map_cons, List.sum_cons, List.length_cons, ih]
    push_cast
    ring

/-- `n·Σxy − Σx·Σy = Σ_{i<j} (x_i − x_j)(y_i − y_j)`: the regression
numerator (and, on duplicated coordinates, the denominator) is the sum
of pairwise products. -/
theorem covExpand :
    ∀ l : List (ℚ × ℚ),
      (l.length : ℚ) * (l.map (fun p => p.1 * p.2)).sum
        - (l.map Prod.fst).sum * (l.map Prod.snd).sum = pairSum l := by
  intro l
  induction l with
  | nil => simp [pairSum]
  | cons p t ih =>
    simp only [List.map_cons, List.sum_cons, List.length_cons, pairSum, headExpand]
    push_cast
    nlinarith [ih]

/-- A list of nonnegative rationals with a positive member has positive
sum. -/
theorem sum_pos_of_mem_q {l : List ℚ} (h0 : ∀ x ∈ l, 0 ≤ x) {x : ℚ}
    (hx : x ∈ l) (hpos : 0 < x) : 0 < l.sum := by
  induction l with
  | nil => simp at hx
  | cons a t ih =>
    rw [List.sum_cons]
    rcases List.mem_cons.mp hx with rfl | hxt
    · have ht : 0 ≤ t.sum := List.sum_nonneg (fun y hy => h0 y (List.mem_cons_of_mem x hy))
      linarith
    · have ha : 0 ≤ a := h0 a (List.mem_cons_self a t)
      have := ih (fun y hy => h0 y (List.mem_cons_of_mem a hy)) hxt
      linarith

/-- The pair-product sum of a comonotone list is nonnegative. -/
theorem pairSum_nonneg :
    ∀ {l : List (ℚ × ℚ)}, l.Pairwise (fun a b => a.1 ≤ b.1 ∧ a.2 ≤ b.2) →
      0 ≤ pairSum l := by
  intro l
  induction l with
  | nil => intro _; simp [pairSum]
  | cons p t ih =>
    intro h
    rcases List.pairwise_cons.mp h with ⟨hhead, htail⟩
    have h1 : 0 ≤ (t.map (fun q => (p.1 - q.1) * (p.2 - q.2))).sum := by
      refine List.sum_nonneg (fun x hx => ?_)
      rcases List.mem_map.mp hx with ⟨q, hq, rfl⟩
      rcases hhead q hq with ⟨hx1, hx2⟩
      nlinarith [mul_nonneg (sub_nonneg.mpr hx1) (sub_nonneg.mpr hx2)]
    have h2 := ih htail
    unfold pairSum
    linarith

/-- With `x` nondecreasing, `y` strictly increasing, and some later `x`
distinct from the head's, the pair-product sum is strictly positive. -/
theorem pairSum_pos {p : ℚ × ℚ} {t : List (ℚ × ℚ)}
    (h : (p :: t).Pairwise (fun a b => a.1 ≤ b.1 ∧ a.2 < b.2))
    {q : ℚ × ℚ} (hq : q ∈ t) (hne : p.1 ≠ q.1) : 0 < pairSum (p :: t) := by
  rcases List.pairwise_cons.mp h with ⟨hhead, htail⟩
  have hterm : ∀ x ∈ t.map (fun q => (p.1 - q.1) * (p.2 - q.2)), 0 ≤ x := by
    intro x hx
    rcases List.mem_map.mp hx with ⟨r, hr, rfl⟩
    rcases hhead r hr with ⟨h1, h2⟩
    nlinarith [mul_nonneg (sub_nonneg.mpr h1) (sub_nonneg.mpr (le_of_lt h2))]
  have hqterm : 0 < (p.1 - q.1) * (p.2 - q.2) := by
    rcases hhead q hq with ⟨h1, h2⟩
    have h1' : p.1 < q.1 := lt_of_le_of_ne h1 hne
    exact mul_pos_of_neg_of_neg (by linarith) (by linarith)
  have hsum : 0 < (t.map (fun q => (p.1 - q.1) * (p.2 - q.2))).sum :=
    sum_pos_of_mem_q hterm (List.mem_map_of_mem _ hq) hqterm
  have h2 : 0 ≤ pairSum t :=
    pairSum_nonneg (htail.imp (fun hab => ⟨hab.1, le_of_lt hab.2⟩))
  unfold pairSum
  linarith

/-- The pair-product sum of duplicated coordinates is a sum of squares. -/
theorem pairSum_sq_nonneg : ∀ xs : List ℚ, 0 ≤ pairSum (xs.map (fun x => (x, x))) := by
  intro xs
  induction xs with
  | nil => simp [pairSum]
  | cons x t ih =>
    simp only [List.map_cons, pairSum, List.map_map]
    have h1 : 0 ≤ (t.map ((fun q : ℚ × ℚ => (x - q.1) * (x - q.2)) ∘ fun y => (y, y))).sum := by
      refine List.sum_nonneg (fun z hz => ?_)
      rcases List.mem_map.mp hz with ⟨y, hy, rfl⟩
      exact mul_self_nonneg (x - y)
    linarith [ih]

/-- … and strictly positive as soon as two of the values differ. -/
theorem pairSum_sq_pos {x : ℚ} {t : List ℚ} {y : ℚ} (hy : y ∈ t) (hne : x ≠ y) :
    0 < pairSum ((x :: t).map (fun x => (x, x))) := by
  simp only [List.map_cons, pairSum, List.map_map]
  have hterm : ∀ z ∈ t.map ((fun q : ℚ × ℚ => (x - q.1) * (x - q.2)) ∘ fun y => (y, y)), 0 ≤ z := by
    intro z hz
    rcases List.mem_map.mp hz with ⟨w, hw, rfl⟩
    exact mul_self_nonneg (x - w)
  have hsum : 0 < (t.map ((fun q : ℚ × ℚ => (x - q.1) * (x - q.2)) ∘ fun y => (y, y))).sum := by
    refine sum_pos_of_mem_q hterm (List.mem_map_of_mem _ hy) ?_
    have : x - y ≠ 0 := sub_ne_zero.mpr hne
    exact mul_self_pos.mpr this
  have h2 : 0 ≤ pairSum (t.map (fun x => (x, x))) := pairSum_sq_nonneg t
  linarith

/-- `linregress` with a nonzero denominator: the guard fails and the
slope/intercept are the closed-form quotients. -/
theorem linregress_eq_of_den_ne (pts : List (ℚ × ℚ))
    (h : (pts.length : ℚ) * (pts.map (fun r => r.1 * r.1)).sum
        - (pts.map Prod.fst).sum * (pts.map Prod.fst).sum ≠ 0) :
    linregress pts = .ok
      (((pts.length : ℚ) * (pts.map (fun r => r.1 * r.2)).sum
          - (pts.map Prod.fst).sum * (pts.map Prod.snd).sum)
        / ((pts.length : ℚ) * (pts.map (fun r => r.1 * r.1)).sum
          - (pts.map Prod.fst).sum * (pts.map Prod.fst).sum),
       ((pts.map Prod.snd).sum
          - (((pts.length : ℚ) * (pts.map (fun r => r.1 * r.2)).sum
              - (pts.map Prod.fst).sum * (pts.map Prod.snd).sum)
            / ((pts.length : ℚ) * (pts.map (fun r => r.1 * r.1)).sum
              - (pts.map Prod.fst).sum * (pts.map Prod.fst).sum))
            * (pts.map Prod.fst).sum)
        / (pts.length : ℚ)) := by
  simp only [linregress]
  rw [if_neg h]

/-- `linregress` on a list whose x's are nondecreasing, whose y's are
strictly increasing, and whose x's are not all equal to the head's,
succeeds with a strictly positive slope. -/
theorem linregress_pos (p : ℚ × ℚ) (rest : List (ℚ × ℚ))
    (hpw : (p :: rest).Pairwise (fun a b => a.1 ≤ b.1 ∧ a.2 < b.2))
    (q : ℚ × ℚ) (hq : q ∈ rest) (hne : p.1 ≠ q.1) :
    ∃ slope intercept,
      linregress (p :: rest) = .ok (slope, intercept) ∧ 0 < slope := by
  have hnum : 0 < ((p :: rest).length : ℚ) * ((p :: rest).map (fun r => r.1 * r.2)).sum
      - ((p :: rest).map Prod.fst).sum * ((p :: rest).map Prod.snd).sum := by
    rw [covExpand]
    exact pairSum_pos hpw hq hne
  have hdupeq : (p :: rest).map (fun r : ℚ × ℚ => (r.1, r.1))
      = (p.1 :: rest.map Prod.fst).map (fun x => (x, x)) := by
    simp [List.map_map]
  have hden : 0 < ((p :: rest).length : ℚ) * ((p :: rest).map (fun r => r.1 * r.1)).sum
      - ((p :: rest).map Prod.fst).sum * ((p :: rest).map Prod.fst).sum := by
    have hcov := covExpand ((p :: rest).map (fun r : ℚ × ℚ => (r.1, r.1)))
    have hlen : (((p :: rest).map (fun r : ℚ × ℚ => (r.1, r.1))).length : ℚ)
        = ((p :: rest).length : ℚ) := by simp
    have hxy : ((p :: rest).map (fun r : ℚ × ℚ => (r.1, r.1))).map (fun r => r.1 * r.2)
        = (p :: rest).map (fun r => r.1 * r.1) := by
      rw [List.map_map]; rfl
    have hfst : ((p :: rest).map (fun r : ℚ × ℚ => (r.1, r.1))).map Prod.fst
        = (p :: rest).map Prod.fst := by
      rw [List.map_map]; rfl
    have hsnd : ((p :: rest).map (fun r : ℚ × ℚ => (r.1, r.1))).map Prod.snd
        = (p :: rest).map Prod.fst := by
      rw [List.map_map]; rfl
    rw [hlen, hxy, hfst, hsnd] at hcov
    rw [hcov, hdupeq]
    exact pairSum_sq_pos (List.mem_map_of_mem Prod.fst hq) hne
  have hd0 : ((p :: rest).length : ℚ) * ((p :: rest).map (fun r => r.1 * r.1)).sum
      - ((p :: rest).map Prod.fst).sum * ((p :: rest).map Prod.fst).sum ≠ 0 := by
    intro h0
    rw [h0] at hden
    exact lt_irrefl 0 hden
  exact ⟨_, _, linregress_eq_of_den_ne (p :: rest) hd0, div_pos hnum hden⟩

/-! ## C5: pipeline reduction -/

theorem filterMap_some_eq_map (f : α → β) :
    ∀ l : List α, l.filterMap (fun a => some (f a)) = l.map f := by
  intro l
  induction l with
  | nil => rfl
  | cons a t ih => simp [List.filterMap_cons, ih]

/-- The datetime conversion succeeds on a column of parseable time
strings. -/
theorem mapExcept_toDatetime_rows :
    ∀ rows : List (String × ℚ), (∀ r ∈ rows, (parseTimestamp r.1).isSome) →
      mapExcept toDatetime (rows.map (fun r => Value.str r.1))
        = .ok (rows.map (fun r => some (timeOf r))) := by
  intro rows
  induction rows with
  | nil => intro _; rfl
  | cons a t ih =>
    intro h
    rcases Option.isSome_iff_exists.mp (h a (List.mem_cons_self a t)) with ⟨ta, hta⟩
    have h1 : toDatetime (Value.str a.1) = .ok (some (timeOf a)) := by
      simp [toDatetime, hta, timeOf]
    simp [mapExcept, List.map_cons, h1,
      ih (fun x hx => h x (List.mem_cons_of_mem a hx))]

/-- The two projected columns of the synthetic records. -/
theorem mkTrendRecord_cols (tf vf : String) (htv : tf ≠ vf) (rows : List (String × ℚ)) :
    (rows.map (mkTrendRecord tf vf)).map (fun p => getCol p tf)
        = rows.map (fun r => Value.str r.1)
    ∧ (rows.map (mkTrendRecord tf vf)).map (fun p => getCol p vf)
        = rows.map (fun r => Value.num r.2) := by
  constructor
  · rw [List.map_map]
    refine List.map_congr_left (fun r _ => ?_)
    simp [mkTrendRecord, getCol, List.lookup]
  · rw [List.map_map]
    refine List.map_congr_left (fun r _ => ?_)
    have h2 : (vf == tf) = false := beq_eq_false_iff_ne.mpr (Ne.symm htv)
    simp [mkTrendRecord, getCol, List.lookup, h2]

/-- The sorted-validated row list of `trendCore` on an already sorted,
fully numeric column pair is the identity projection. -/
theorem validPairs_of_sorted (rows : List (String × ℚ))
    (hmono : rows.Chain' (fun r s => timeOf r < timeOf s)) :
    validPairs (rows.map (fun r => some (timeOf r))) (rows.map (fun r => Value.num r.2))
      = rows.map (fun r => (timeOf r, r.2)) := by
  unfold validPairs
  rw [List.zip_map']
  have hchain : (rows.map (fun r => (some (timeOf r), Value.num r.2))).Chain'
      (fun x y => timeKeyLE x y = true) := by
    rw [List.chain'_map]
    refine hmono.imp (fun {a b} hab => ?_)
    simp only [timeKeyLE, decide_eq_true_eq]
    exact le_of_lt hab
  rw [sortBy_eq_self hchain, List.filterMap_map]
  exact filterMap_some_eq_map (fun r => (timeOf r, r.2)) rows

/-- `trendCore` on a sorted strictly-increasing series whose first and
last timestamps are at least one day apart yields an increasing trend
with positive slope. -/
theorem trendCore_increasing (a b : String × ℚ) (t : List (String × ℚ))
    (hmono : (a :: b :: t).Chain' (fun r s => timeOf r < timeOf s))
    (hvals : (a :: b :: t).Chain' (fun r s => r.2 < s.2))
    (hspan : 1 ≤ timeOf ((b :: t).getLast (List.cons_ne_nil b t)) - timeOf a) :
    ∃ s i, trendCore ((a :: b :: t).map (fun r => some (timeOf r)))
        ((a :: b :: t).map (fun r => Value.num r.2))
      = .trend s i "increasing" (t.length + 2) ∧ 0 < s := by
  have hvalid := validPairs_of_sorted (a :: b :: t) hmono
  unfold trendCore
  rw [hvalid]
  simp only [List.map_map, List.length_map, List.length_cons]
  rw [if_neg (by omega)]
  set c := minQ ((a :: b :: t).map (Prod.fst ∘ fun r => (timeOf r, r.2))) with hc
  rw [show ((fun r : ℚ × ℚ => (((⌊r.1 - c⌋ : ℤ) : ℚ), r.2))
        ∘ (fun r : String × ℚ => (timeOf r, r.2)))
      = (fun r : String × ℚ => (((⌊timeOf r - c⌋ : ℤ) : ℚ), r.2)) from rfl]
  -- pairwise structure of the regression points
  haveI ht1 : IsTrans (String × ℚ) (fun r s => timeOf r < timeOf s) :=
    ⟨fun _ _ _ h1 h2 => lt_trans h1 h2⟩
  haveI ht2 : IsTrans (String × ℚ) (fun r s => r.2 < s.2) :=
    ⟨fun _ _ _ h1 h2 => lt_trans h1 h2⟩
  have hpw : ((a :: b :: t).map (fun r => (((⌊timeOf r - c⌋ : ℤ) : ℚ), r.2))).Pairwise
      (fun x y => x.1 ≤ y.1 ∧ x.2 < y.2) := by
    rw [List.pairwise_map]
    have t1 : (a :: b :: t).Pairwise (fun r s => timeOf r < timeOf s) :=
      List.chain'_iff_pairwise.mp hmono
    have t2 : (a :: b :: t).Pairwise (fun r s => r.2 < s.2) :=
      List.chain'_iff_pairwise.mp hvals
    refine (t1.and t2).imp (fun {r s} hrs => ⟨?_, hrs.2⟩)
    show ((⌊timeOf r - c⌋ : ℤ) : ℚ) ≤ ((⌊timeOf s - c⌋ : ℤ) : ℚ)
    exact_mod_cast Int.floor_le_floor (by linarith [hrs.1])
  have hfl : ⌊timeOf a - c⌋ < ⌊timeOf ((b :: t).getLast (List.cons_ne_nil b t)) - c⌋ := by
    have h1 : timeOf a - c + 1 ≤ timeOf ((b :: t).getLast (List.cons_ne_nil b t)) - c := by
      linarith
    calc ⌊timeOf a - c⌋ < ⌊timeOf a - c⌋ + 1 := by omega
      _ = ⌊timeOf a - c + 1⌋ := (Int.floor_add_one _).symm
      _ ≤ ⌊timeOf ((b :: t).getLast (List.cons_ne_nil b t)) - c⌋ := Int.floor_le_floor h1
  have hne : ((((⌊timeOf a - c⌋ : ℤ) : ℚ), a.2) : ℚ × ℚ).1
      ≠ ((((⌊timeOf ((b :: t).getLast (List.cons_ne_nil b t)) - c⌋ : ℤ) : ℚ),
          ((b :: t).getLast (List.cons_ne_nil b t)).2) : ℚ × ℚ).1 := by
    show ((⌊timeOf a - c⌋ : ℤ) : ℚ)
        ≠ ((⌊timeOf ((b :: t).getLast (List.cons_ne_nil b t)) - c⌋ : ℤ) : ℚ)
    exact_mod_cast ne_of_lt hfl
  have hqmem : ((((⌊timeOf ((b :: t).getLast (List.cons_ne_nil b t)) - c⌋ : ℤ) : ℚ),
        ((b :: t).getLast (List.cons_ne_nil b t)).2) : ℚ × ℚ)
      ∈ (b :: t).map (fun r => (((⌊timeOf r - c⌋ : ℤ) : ℚ), r.2)) :=
    List.mem_map_of_mem _ (List.getLast_mem (List.cons_ne_nil b t))
  have hpw' : ((((⌊timeOf a - c⌋ : ℤ) : ℚ), a.2)
      :: (b :: t).map (fun r => (((⌊timeOf r - c⌋ : ℤ) : ℚ), r.2))).Pairwise
        (fun x y => x.1 ≤ y.1 ∧ x.2 < y.2) := by
    have h := hpw
    rw [List.map_cons] at h
    exact h
  rcases linregress_pos _ _ hpw' _ hqmem hne with ⟨s, i, heq, hs⟩
  refine ⟨s, i, ?_, hs⟩
  rw [List.map_cons, heq]
  simp +arith [directionLabel, hs]

/-- On synthetic records with parseable time strings, the analysis
reaches `trendCore` with the projected columns. -/
theorem run_trend_on_rows (tf vf : String) (htv : tf ≠ vf)
    (rows : List (String × ℚ)) (hne : rows ≠ [])
    (hparse : ∀ r ∈ rows, (parseTimestamp r.1).isSome) :
    run_trend_analysis (rows.map (mkTrendRecord tf vf)) tf vf
      = .ok (trendCore (rows.map (fun r => some (timeOf r)))
          (rows.map (fun r => Value.num r.2))) := by
  have hcols := mkTrendRecord_cols tf vf htv rows
  have hmape := mapExcept_toDatetime_rows rows hparse
  have he : (rows.map (mkTrendRecord tf vf)).isEmpty = false := by
    cases rows with
    | nil => exact absurd rfl hne
    | cons a t => rfl
  have hhc : (hasColumn (rows.map (mkTrendRecord tf vf)) tf
      && hasColumn (rows.map (mkTrendRecord tf vf)) vf) = true := by
    cases rows with
    | nil => exact absurd rfl hne
    | cons a t => simp [hasColumn, mkTrendRecord]
  simp [run_trend_analysis, he, hhc, hcols.1, hcols.2, hmape]

/-- C5 counterexample: two records with strictly increasing timestamps
on the same calendar day and strictly increasing values.  The elapsed
"days" regression indices are both 0, `linregress` raises on identical
x values, and the run returns the caught error — not an increasing
trend with positive slope. -/
theorem trend_same_day_counterexample :
    run_trend_analysis
        [[("t", Value.str "2024-01-01T00:00:00"), ("v", Value.num 1)],
         [("t", Value.str "2024-01-01T12:00:00"), ("v", Value.num 2)]] "t" "v"
      = .ok (.err "Cannot calculate a linear regression if all x values are identical") := by
  with_unfolding_all decide

/-- C5 (amended): the direction label is `increasing`/`decreasing`/
`stable` exactly as the fitted slope is positive/negative/zero; and a
strictly increasing numeric series over strictly increasing parseable
timestamps whose first and last rows lie at least one day apart (so the
elapsed-day indices are not all equal) yields an increasing trend with
positive slope. -/
theorem trend_direction_and_increasing :
    (∀ (records : List Payload) (tf vf : String) (s i : ℚ) (d : String) (n : ℕ),
      run_trend_analysis records tf vf = .ok (.trend s i d n) →
      (d = "increasing" ↔ 0 < s) ∧ (d = "decreasing" ↔ s < 0) ∧ (d = "stable" ↔ s = 0))
    ∧ (∀ (tf vf : String) (a b : String × ℚ) (t : List (String × ℚ)),
      tf ≠ vf →
      (∀ r ∈ a :: b :: t, (parseTimestamp r.1).isSome) →
      (a :: b :: t).Chain' (fun r s => timeOf r < timeOf s) →
      (a :: b :: t).Chain' (fun r s => r.2 < s.2) →
      1 ≤ timeOf ((b :: t).getLast (List.cons_ne_nil b t)) - timeOf a →
      ∃ s i, run_trend_analysis ((a :: b :: t).map (mkTrendRecord tf vf)) tf vf
          = .ok (.trend s i "increasing" (t.length + 2)) ∧ 0 < s) := by
  constructor
  · intro records tf vf s i d n hres
    have hd : d = directionLabel s := by
      unfold run_trend_analysis trendCore at hres
      split at hres
      · simp at hres
      · split at hres
        · simp at hres
        · split at hres
          · simp at hres
          · rw [Except.ok.injEq] at hres
            dsimp only at hres
            split at hres
            · simp at hres
            · split at hres
              · simp at hres
              · simp only [AnalysisReply.trend.injEq] at hres
                rw [← hres.1, ← hres.2.2.1]
    subst hd
    rcases lt_trichotomy s 0 with h | h | h
    · have hl : directionLabel s = "decreasing" := by
        unfold directionLabel
        rw [if_neg (by linarith), if_pos h]
      rw [hl]
      exact ⟨⟨fun hq => absurd hq (by decide), fun hq => absurd h (by linarith)⟩,
        ⟨fun _ => h, fun _ => rfl⟩,
        ⟨fun hq => absurd hq (by decide), fun hq => absurd h (by linarith)⟩⟩
    · have hl : directionLabel s = "stable" := by
        unfold directionLabel
        rw [if_neg (by linarith), if_neg (by linarith)]
      rw [hl]
      exact ⟨⟨fun hq => absurd hq (by decide), fun hq => absurd hq (by linarith)⟩,
        ⟨fun hq => absurd hq (by decide), fun hq => absurd hq (by linarith)⟩,
        ⟨fun _ => h, fun _ => rfl⟩⟩
    · have hl : directionLabel s = "increasing" := by
        unfold directionLabel
        rw [if_pos h]
      rw [hl]
      exact ⟨⟨fun _ => h, fun _ => rfl⟩,
        ⟨fun hq => absurd hq (by decide), fun hq => absurd h (by linarith)⟩,
        ⟨fun hq => absurd hq (by decide), fun hq => absurd h (by linarith)⟩⟩
  · intro tf vf a b t htv hparse hmono hvals hspan
    rcases trendCore_increasing a b t hmono hvals hspan with ⟨s, i, hcore, hs⟩
    refine ⟨s, i, ?_, hs⟩
    rw [run_trend_on_rows tf vf htv (a :: b :: t) (List.cons_ne_nil a (b :: t)) hparse,
      hcore]

/-- C5 witness: the direction rules applied to a concrete two-day
increasing series, and the amended positive statement at the same
series. -/
theorem trend_direction_and_increasing_witness :
    (∃ s i, run_trend_analysis
        ([("2024-01-01", (1 : ℚ)), ("2024-01-02", (3 : ℚ))].map (mkTrendRecord "t" "v"))
        "t" "v" = .ok (.trend s i "increasing" 2) ∧ 0 < s) ∧
    (∀ (s i : ℚ) (d : String) (n : ℕ),
      run_trend_analysis
          ([("2024-01-01", (1 : ℚ)), ("2024-01-02", (3 : ℚ))].map (mkTrendRecord "t" "v"))
          "t" "v" = .ok (.trend s i d n) →
      (d = "increasing" ↔ 0 < s) ∧ (d = "decreasing" ↔ s < 0) ∧ (d = "stable" ↔ s = 0)) :=
  ⟨trend_direction_and_increasing.2 "t" "v" ("2024-01-01", (1 : ℚ)) ("2024-01-02", (3 : ℚ)) []
      (by decide) (by decide)
      (by simp only [List.chain'_cons, List.chain'_singleton, and_true]
          with_unfolding_all decide)
      (by simp only [List.chain'_cons, List.chain'_singleton, and_true]
          with_unfolding_all decide)
      (by with_unfolding_all decide),
   fun s i d n h =>
     trend_direction_and_increasing.1 _ "t" "v" s i d n h⟩

end DataHub
